import Mathlib

set_option maxRecDepth 100000

set_option maxHeartbeats 2000000

/-! Verification of the core of `timing_attack_demo.py`.

Characters are modelled as natural-number code points (Python `ord` values),
strings as `List ℕ`.  Durations reported by `time.perf_counter_ns` are
nonnegative integers, modelled as `ℕ`; Python float arithmetic on them is
modelled exactly over `ℚ`.  Randomness (`random.choice` / `random.choices`)
is modelled by an explicit supply of draws, consumed left to right, each
draw selecting one character of the alphabet
`string.ascii_letters + string.digits`. -/

/-- Model of Python `str.ljust`: pad `l` on the right with `fill` up to
`width` characters; no change when `l` already has at least `width`
characters. -/
def ljust (l : List ℕ) (width : ℕ) (fill : ℕ) : List ℕ :=
  l ++ List.replicate (width - l.length) fill

/-- Lines 64-67 of `PasswordChecker.secure_check`: the candidate is padded
with NUL to the secret's length when the lengths differ, otherwise left
unchanged. -/
def normalized_input (secret input_password : List ℕ) : List ℕ :=
  if input_password.length ≠ secret.length then ljust input_password secret.length 0
  else input_password

/-- Model of `PasswordChecker.vulnerable_check` (lines 29-50): return false
when the lengths differ, otherwise compare character by character with an
early exit at the first mismatch (`List.all` short-circuits exactly like
the Python loop). -/
def vulnerable_check (secret input_password : List ℕ) : Bool :=
  if input_password.length ≠ secret.length then false
  else
    (List.range secret.length).all fun i =>
      decide (input_password.getD i 0 = secret.getD i 0)

/-- Model of `PasswordChecker.secure_check` (lines 52-76): pad the candidate
via `normalized_input`, then OR-accumulate the per-character XOR
differences over the whole secret length and report a match exactly when
the accumulator is zero. -/
def secure_check (secret input_password : List ℕ) : Bool :=
  decide
    ((List.range secret.length).foldl
      (fun acc i =>
        acc ||| ((normalized_input secret input_password).getD i 0 ^^^ secret.getD i 0))
      0 = 0)

/-- Instrumented `secure_check`: the same accumulation, paired with a count
of the comparison-loop iterations executed.  The iteration count is the
abstract cost model for the execution time of the comparison loop. -/
def secureRun (secret input_password : List ℕ) : Bool × ℕ :=
  let p :=
    (List.range secret.length).foldl
      (fun q i =>
        (q.1 ||| ((normalized_input secret input_password).getD i 0 ^^^ secret.getD i 0),
          q.2 + 1))
      (0, 0)
  (decide (p.1 = 0), p.2)

/-- Alphabet `string.ascii_letters + string.digits` as code points:
lowercase letters, then uppercase letters, then digits. -/
def alphabet : List ℕ :=
  ((List.range 26).map fun i => 97 + i) ++ ((List.range 26).map fun i => 65 + i) ++
    ((List.range 10).map fun i => 48 + i)

/-- Model of `random.choice(chars)`: one supply entry selects one character
of the 62-character alphabet. -/
def choice (s : ℕ) : ℕ :=
  alphabet.getD (s % 62) 0

/-- Model of `random.choices(chars, k=k)`: consume `k` supply entries (none
when `k` is negative, matching Python); `none` when the supply is too
short. -/
def choices (k : ℕ) (supply : List ℕ) : Option (List ℕ × List ℕ) :=
  if supply.length < k then none
  else some ((supply.take k).map choice, supply.drop k)

/-- Rejection loop of lines 124-126 of `generate_password_attempts`: draw
characters until one differs from `bad`; `none` when the supply runs out
(the Python loop would simply keep drawing). -/
def drawDiff (bad : ℕ) : List ℕ → Option (ℕ × List ℕ)
  | [] => none
  | s :: rest => if choice s = bad then drawDiff bad rest else some (choice s, rest)

/-- Loop of lines 121-127: for each remaining secret character, draw a
character different from it. -/
def fillRest : List ℕ → List ℕ → Option (List ℕ × List ℕ)
  | [], supply => some ([], supply)
  | b :: bs, supply =>
    match drawDiff b supply with
    | none => none
    | some (c, supply1) =>
      match fillRest bs supply1 with
      | none => none
      | some (cs, supply2) => some (c :: cs, supply2)

/-- Model of `generate_password_attempts` (lines 103-129): when the
requested number of correct characters reaches the secret's length, return
the secret unchanged; otherwise keep the first `num_correct_chars`
characters of the secret and fill the rest with draws that differ from the
corresponding secret characters. -/
def generate_password_attempts (correct_password : List ℕ) (num_correct_chars : ℕ)
    (supply : List ℕ) : Option (List ℕ × List ℕ) :=
  if correct_password.length ≤ num_correct_chars then some (correct_password, supply)
  else
    match fillRest (correct_password.drop num_correct_chars) supply with
    | none => none
    | some (cs, supply1) => some (correct_password.take num_correct_chars ++ cs, supply1)

/-- Error values of the Python faults the model can surface, plus
`randomnessExhausted`, which marks a run whose finite draw supply ran out
(the Python code would instead keep consuming its global random stream). -/
inductive PyError where
  | statisticsError
  | valueError
  | zeroDivisionError
  | indexError
  | randomnessExhausted
deriving DecidableEq

/-- Model of Python `range(n)` for an `int` argument: empty when `n ≤ 0`. -/
def pyRange (n : ℤ) : List ℕ := List.range n.toNat

/-- Value of `statistics.mean` on a nonempty list of integer durations
(exact rational; Python returns the same value as a float). -/
def meanVal (l : List ℕ) : ℚ := (l.sum : ℚ) / (l.length : ℚ)

/-- Model of `statistics.mean`: raises `StatisticsError` on an empty list. -/
def mean (l : List ℕ) : Option ℚ :=
  if l.length = 0 then none else some (meanVal l)

/-- Sample variance with the `n - 1` denominator, the square of
`statistics.stdev`; `stdev` is its (irrational) square root, so `stdev` is
defined, and is zero, exactly when this value is defined, and is zero. -/
def svarVal (l : List ℕ) : ℚ :=
  ((l.map fun x => ((x : ℚ) - meanVal l) ^ 2).sum) / ((l.length : ℚ) - 1)

/-- Model of the definedness of `statistics.stdev`: it raises
`StatisticsError` on fewer than two data points. -/
def svar (l : List ℕ) : Option ℚ :=
  if l.length < 2 then none else some (svarVal l)

/-- Model of `measure_execution_time` (lines 79-100): run the timed call
`iterations` times, recording one elapsed duration per iteration (the
durations themselves come from the environment and are supplied by
`oracle`), and return the mean together with the raw list.
`statistics.mean` of zero recorded durations raises `StatisticsError`. -/
def measure_execution_time (oracle : ℕ → ℕ) (iterations : ℤ) :
    Except PyError (ℚ × List ℕ) :=
  match mean ((pyRange iterations).map oracle) with
  | none => .error .statisticsError
  | some avg => .ok (avg, (pyRange iterations).map oracle)

/-- Record stored per prefix-match length by `timing_attack_simulation`:
the generated attempt (instrumented so the fairness claim is statable),
the average time, the squared standard deviation and the raw times. -/
structure StepResult where
  attempt : List ℕ
  avg_time : ℚ
  variance : ℚ
  all_times : List ℕ
deriving DecidableEq

/-- Loop of lines 166-181 (and identically 190-205): for each match length
`L` in `Ls`, generate one attempt, measure it for 1000 iterations and
compute the standard deviation of the recorded times.  `k` numbers the
measurement calls so each gets its own duration stream `oracle k`. -/
def sweepLoop (secret : List ℕ) (oracle : ℕ → ℕ → ℕ) :
    List ℕ → ℕ → List ℕ → Except PyError (List StepResult × ℕ × List ℕ)
  | [], k, supply => .ok ([], k, supply)
  | L :: Ls, k, supply =>
    match generate_password_attempts secret L supply with
    | none => .error .randomnessExhausted
    | some (att, supply1) =>
      match measure_execution_time (oracle k) 1000 with
      | .error e => .error e
      | .ok (avg, times) =>
        match svar times with
        | none => .error .statisticsError
        | some v =>
          match sweepLoop secret oracle Ls (k + 1) supply1 with
          | .error e => .error e
          | .ok (rs, k2, supply2) => .ok (⟨att, avg, v, times⟩ :: rs, k2, supply2)

/-- Results dictionary built by `timing_attack_simulation`: the per-length
records of the vulnerable sweep and of the secure sweep (index = number of
correct characters), plus the configured password length. -/
structure SimResults where
  vulnerable : List StepResult
  secure : List StepResult
  password_length : ℤ
deriving DecidableEq

/-- Model of `timing_attack_simulation` (lines 132-209): draw a random
secret of the configured length, sweep `num_correct` over
`range(password_length + 1)` measuring `vulnerable_check`, then sweep the
same range again measuring `secure_check` (each sweep generating its own
fresh attempts, in program order on the shared randomness supply), and
return the results together with the secret.  No configuration validation
is performed anywhere. -/
def timing_attack_simulation (password_length : ℤ) (supply : List ℕ)
    (oracle : ℕ → ℕ → ℕ) : Except PyError (SimResults × List ℕ) :=
  match choices password_length.toNat supply with
  | none => .error .randomnessExhausted
  | some (correct_password, supply1) =>
    match sweepLoop correct_password oracle (pyRange (password_length + 1)) 0 supply1 with
    | .error e => .error e
    | .ok (vres, k1, supply2) =>
      match sweepLoop correct_password oracle (pyRange (password_length + 1)) k1 supply2 with
      | .error e => .error e
      | .ok (sres, _, _) => .ok (⟨vres, sres, password_length⟩, correct_password)

/-- Constant-zero duration oracle used to instantiate the simulation on
concrete inputs. -/
def zOracle : ℕ → ℕ → ℕ := fun _ _ => 0

/-- Duration list of the `k`-th measurement call of the concrete run used
in the C2 witness. -/
def simTimes (k : ℕ) : List ℕ := (pyRange 1000).map (zOracle k)

/-- Per-step record of the concrete run used in the C2 witness. -/
def simStep (k : ℕ) : StepResult :=
  ⟨[], meanVal (simTimes k), svarVal (simTimes k), simTimes k⟩

/-- Correlation value as computed by the Analyzer: `sentinel` is the
literal `0` produced by the `if len > 1 else 0` guard; `value sxy sxx syy`
represents the Pearson coefficient `sxy / sqrt (sxx * syy)` of
`statistics.correlation` through its exact rational components (the square
root itself is irrational, so the value is kept in this exact form). -/
inductive CorrOut where
  | sentinel
  | value (sxy sxx syy : ℚ)
deriving DecidableEq

/-- Model of `list(range(len(ys)))` used as the x-axis of the correlation
(lines 229-230). -/
def qIndices (n : ℕ) : List ℚ := (List.range n).map fun i => (i : ℚ)

/-- Model of `statistics.correlation`: `StatisticsError` when the inputs
have different lengths, fewer than two points, or a constant input (zero
`sxx * syy`); otherwise the exact components of the coefficient. -/
def correlationStat (xs ys : List ℚ) : Except PyError CorrOut :=
  if xs.length ≠ ys.length ∨ xs.length < 2 then .error .statisticsError
  else
    let xm := xs.sum / (xs.length : ℚ)
    let ym := ys.sum / (ys.length : ℚ)
    let sxy := ((xs.zip ys).map fun p => (p.1 - xm) * (p.2 - ym)).sum
    let sxx := (xs.map fun x => (x - xm) ^ 2).sum
    let syy := (ys.map fun y => (y - ym) ^ 2).sum
    if sxx * syy = 0 then .error .statisticsError else .ok (.value sxy sxx syy)

/-- Scalar metrics returned by `analyze_results` (lines 261-266). -/
structure AnalysisReport where
  vulnerable_correlation : CorrOut
  secure_correlation : CorrOut
  time_increase_percentage : ℚ
  secure_variance_percentage : ℚ
deriving DecidableEq

/-- Secure half of `analyze_results` (lines 243-257), in program order:
`max`/`min` of the average times (`ValueError` on an empty list), the
guarded correlation, then the percentage computed against `min`
(`ZeroDivisionError` on a zero minimum). -/
def analyze_secure_part (secure_times : List ℚ) : Except PyError (CorrOut × ℚ) :=
  match secure_times.max? with
  | none => .error .valueError
  | some sMax =>
    match secure_times.min? with
    | none => .error .valueError
    | some sMin =>
      match
        (if secure_times.length > 1
          then correlationStat (qIndices secure_times.length) secure_times
          else .ok .sentinel) with
      | .error e => .error e
      | .ok corrS =>
        if sMin = 0 then .error .zeroDivisionError
        else .ok (corrS, (sMax - sMin) / sMin * 100)

/-- Model of `analyze_results` (lines 212-266) on the ordered per-length
average-time lists of the two strategies, in program order: the vulnerable
list is indexed at `[-1]` and `[0]` (`IndexError` on an empty list), its
correlation is computed behind the `len > 1` guard, the percentage
increase divides by the fastest (index-0) average (`ZeroDivisionError`
when it is zero), and then the secure half runs. -/
def analyze_results (vuln_times secure_times : List ℚ) :
    Except PyError AnalysisReport :=
  match vuln_times.getLast? with
  | none => .error .indexError
  | some tLast =>
    match vuln_times.head? with
    | none => .error .indexError
    | some tFirst =>
      match
        (if vuln_times.length > 1
          then correlationStat (qIndices vuln_times.length) vuln_times
          else .ok .sentinel) with
      | .error e => .error e
      | .ok corrV =>
        if tFirst = 0 then .error .zeroDivisionError
        else
          match analyze_secure_part secure_times with
          | .error e => .error e
          | .ok (corrS, varPct) =>
            .ok ⟨corrV, corrS, (tLast - tFirst) / tFirst * 100, varPct⟩

/-- Verdict printed at line 238 for the early-exit strategy, as a function
of the computed correlation value: a signed comparison `correlation > 0.8`
with no absolute value, and only two possible outcomes. -/
def verdict_vulnerable (c : ℚ) : String :=
  if c > 8 / 10 then "VULNERABLE" else "POSSIBLY VULNERABLE"

/-- Verdict printed at line 257 for the constant-time strategy: `SECURE`
exactly when the correlation magnitude is below 0.3, and only two possible
outcomes. -/
def verdict_secure (c : ℚ) : String :=
  if |c| < 3 / 10 then "SECURE" else "POSSIBLY VULNERABLE"

theorem lor_eq_zero_iff (a b : ℕ) : a ||| b = 0 ↔ a = 0 ∧ b = 0 := by
  constructor
  · intro h
    have hb : ∀ i, a.testBit i = false ∧ b.testBit i = false := by
      intro i
      have h2 : (a ||| b).testBit i = false := by rw [h]; simp
      rw [Nat.testBit_or] at h2
      exact Bool.or_eq_false_iff.mp h2
    constructor
    · exact Nat.eq_of_testBit_eq fun i => by simp [(hb i).1]
    · exact Nat.eq_of_testBit_eq fun i => by simp [(hb i).2]
  · rintro ⟨rfl, rfl⟩
    rfl

theorem foldl_or_eq_zero (f : ℕ → ℕ) (l : List ℕ) (a : ℕ) :
    (l.foldl (fun acc i => acc ||| f i) a = 0) ↔ (a = 0 ∧ ∀ i ∈ l, f i = 0) := by
  induction l generalizing a with
  | nil => simp
  | cons hd tl ih =>
    simp only [List.foldl_cons, ih, lor_eq_zero_iff, List.mem_cons]
    constructor
    · rintro ⟨⟨ha, hhd⟩, htl⟩
      refine ⟨ha, ?_⟩
      intro i hi
      rcases hi with rfl | hi
      · exact hhd
      · exact htl i hi
    · rintro ⟨ha, hall⟩
      exact ⟨⟨ha, hall hd (Or.inl rfl)⟩, fun i hi => hall i (Or.inr hi)⟩

theorem foldl_or_count (f : ℕ → ℕ) (l : List ℕ) (a b : ℕ) :
    l.foldl (fun q i => (q.1 ||| f i, q.2 + 1)) (a, b)
      = (l.foldl (fun acc i => acc ||| f i) a, b + l.length) := by
  induction l generalizing a b with
  | nil => simp
  | cons hd tl ih =>
    simp only [List.foldl_cons, ih, List.length_cons]
    exact Prod.ext rfl (by omega)

theorem secureRun_eq (secret c : List ℕ) :
    secureRun secret c = (secure_check secret c, secret.length) := by
  unfold secureRun secure_check
  rw [foldl_or_count]
  simp

/-- C1 (code bug evidence): with secret "a" and candidate "ab" the lengths
differ, yet `secure_check` returns true: `ljust` never truncates, so a
candidate that strictly extends the secret is compared only on its first
`len(secret)` characters.  This contradicts the function's own docstring
("True if password matches, False otherwise").  `vulnerable_check` does
return false on the same input. -/
theorem C1_secure_check_length_mismatch_eval :
    vulnerable_check [97] [97, 98] = false ∧ secure_check [97] [97, 98] = true := by
  decide

/-- C6: each comparator variant accepts the secret itself. -/
theorem C6_self_check_true (secret : List ℕ) :
    vulnerable_check secret secret = true ∧ secure_check secret secret = true := by
  constructor
  · unfold vulnerable_check
    simp
  · unfold secure_check normalized_input
    simp [foldl_or_eq_zero]

/-- C9: under the iteration-count cost model, `secure_check` runs its
comparison loop exactly `secret.length` times for every candidate, so its
cost is independent of where (or whether) a mismatch occurs and of the
candidate's length; the instrumented run also computes the same boolean as
`secure_check`. -/
theorem C9_secure_check_constant_iterations (secret c1 c2 : List ℕ) :
    (secureRun secret c1).1 = secure_check secret c1 ∧
      (secureRun secret c1).2 = secret.length ∧
      (secureRun secret c1).2 = (secureRun secret c2).2 := by
  simp [secureRun_eq]

/-- C10: on candidates of the secret's exact length the two comparator
variants agree. -/
theorem C10_checks_agree (secret input_password : List ℕ)
    (h : input_password.length = secret.length) :
    vulnerable_check secret input_password = secure_check secret input_password := by
  unfold vulnerable_check secure_check normalized_input
  rw [if_neg (by simp [h]), Bool.eq_iff_iff]
  simp [foldl_or_eq_zero, Nat.xor_eq_zero, h]

/-- Witness for C10 at secret "ab", candidate "ac". -/
theorem C10_checks_agree_witness :
    ([97, 99] : List ℕ).length = ([97, 98] : List ℕ).length ∧
      vulnerable_check [97, 98] [97, 99] = secure_check [97, 98] [97, 99] :=
  ⟨rfl, C10_checks_agree [97, 98] [97, 99] rfl⟩

theorem drawDiff_ne (bad : ℕ) (supply : List ℕ) (c : ℕ) (rest : List ℕ)
    (h : drawDiff bad supply = some (c, rest)) : c ≠ bad := by
  induction supply with
  | nil => simp [drawDiff] at h
  | cons s tl ih =>
    unfold drawDiff at h
    split at h
    · exact ih h
    · rename_i hne
      cases h
      exact hne

theorem fillRest_spec (bs : List ℕ) : ∀ supply cs supply2,
    fillRest bs supply = some (cs, supply2) →
      cs.length = bs.length ∧
        ∀ b tl, bs = b :: tl → ∃ c ctl, cs = c :: ctl ∧ c ≠ b := by
  induction bs with
  | nil =>
    intro supply cs supply2 h
    simp only [fillRest, Option.some_inj, Prod.mk.injEq] at h
    obtain ⟨rfl, rfl⟩ := h
    exact ⟨rfl, by intro b tl hb; cases hb⟩
  | cons b bs ih =>
    intro supply cs supply2 h
    unfold fillRest at h
    cases hd : drawDiff b supply with
    | none => simp [hd] at h
    | some p =>
      obtain ⟨c, supply1⟩ := p
      simp only [hd] at h
      cases hf : fillRest bs supply1 with
      | none => simp [hf] at h
      | some q =>
        obtain ⟨cs1, supply3⟩ := q
        simp only [hf, Option.some_inj, Prod.mk.injEq] at h
        obtain ⟨rfl, rfl⟩ := h
        obtain ⟨hlen, _⟩ := ih supply1 cs1 supply3 hf
        constructor
        · simp [hlen]
        · intro b0 tl0 hb
          cases hb
          exact ⟨c, cs1, rfl, drawDiff_ne b supply c supply1 hd⟩

/-- C5: whenever the attempt generator succeeds on a target match length
`L ≤ |secret|`, the produced candidate has the secret's exact length, its
first `L` characters equal the secret's first `L` characters, its character
at position `L` differs from the secret's (when `L < |secret|`), and when
`L = |secret|` the candidate is the secret itself. -/
theorem C5_generate_exact_match_length (secret : List ℕ) (L : ℕ)
    (supply att rest : List ℕ) (hL : L ≤ secret.length)
    (h : generate_password_attempts secret L supply = some (att, rest)) :
    att.length = secret.length ∧ att.take L = secret.take L ∧
      (L < secret.length → att.get? L ≠ secret.get? L) ∧
      (L = secret.length → att = secret) := by
  unfold generate_password_attempts at h
  split at h
  · rename_i hge
    cases h
    refine ⟨rfl, rfl, ?_, fun _ => rfl⟩
    intro hlt
    omega
  · rename_i hnge
    have hLlt : L < secret.length := by omega
    cases hf : fillRest (secret.drop L) supply with
    | none => rw [hf] at h; cases h
    | some p =>
      obtain ⟨cs, supply2⟩ := p
      rw [hf] at h
      cases h
      obtain ⟨hlen, hhead⟩ := fillRest_spec (secret.drop L) supply cs rest hf
      have htakelen : (secret.take L).length = L := by
        simp [hL]
      refine ⟨?_, ?_, ?_, ?_⟩
      · simp only [List.length_append, htakelen, hlen, List.length_drop]
        omega
      · have ht := List.take_left (secret.take L) cs
        rw [htakelen] at ht
        rw [ht]
      · intro _
        have h1 : (secret.take L ++ cs).get? L = cs.get? (L - (secret.take L).length) :=
          List.get?_append_right (by omega)
        rw [htakelen, Nat.sub_self] at h1
        cases hdrop : secret.drop L with
        | nil =>
          have : secret.length - L = 0 := by
            simpa [List.length_drop] using congrArg List.length hdrop
          omega
        | cons b tl =>
          obtain ⟨c, ctl, hcs, hcb⟩ := hhead b tl hdrop
          have h2 : secret.get? L = some b := by
            have : (secret.drop L).get? 0 = secret.get? (L + 0) := List.get?_drop secret L 0
            simpa [hdrop] using this.symm
          rw [h1, h2, hcs]
          simp [hcb]
      · intro he
        omega

/-- Witness for C5 at secret "ab", match length 1, a one-entry supply that
draws the letter a. -/
theorem C5_generate_exact_match_length_witness :
    1 ≤ ([97, 98] : List ℕ).length ∧
      generate_password_attempts [97, 98] 1 [0] = some ([97, 97], []) ∧
      (([97, 97] : List ℕ).length = ([97, 98] : List ℕ).length ∧
        ([97, 97] : List ℕ).take 1 = ([97, 98] : List ℕ).take 1 ∧
        (1 < ([97, 98] : List ℕ).length →
          ([97, 97] : List ℕ).get? 1 ≠ ([97, 98] : List ℕ).get? 1) ∧
        (1 = ([97, 98] : List ℕ).length → ([97, 97] : List ℕ) = [97, 98])) :=
  ⟨by decide, by decide,
    C5_generate_exact_match_length [97, 98] 1 [0] [97, 97] [] (by decide) (by decide)⟩

/-- C7: a sampling call with an iteration count of 1 records exactly one
measurement and a defined mean, but the sample standard deviation the
sweep then computes (`statistics.stdev`) is undefined on one data point:
the run raises `StatisticsError` instead of reporting zero. -/
theorem C7_single_iteration_behavior (oracle : ℕ → ℕ) (t : ℕ) :
    measure_execution_time oracle 1 = .ok (meanVal [oracle 0], [oracle 0]) ∧
      svar [t] = none :=
  ⟨rfl, rfl⟩

/-- Counterexample for C7 as stated: at iteration count 1 with a recorded
duration of 5 ns the single measurement is produced, but the standard
deviation is undefined (`statistics.stdev` raises), not zero. -/
theorem C7_single_iteration_stdev_counterexample :
    measure_execution_time (fun _ => 5) 1 = .ok (5, [5]) ∧ svar [5] = none := by
  constructor
  · show Except.ok (meanVal [5], [5]) = Except.ok (5, [5])
    norm_num [meanVal]
  · rfl

/-- C2 counterexample: a concrete run with password length 1 in which the
vulnerable sweep at match length 0 measures the attempt "b" while the
secure sweep at the same match length measures the freshly generated
attempt "c" — the two sweeps do not share one attempt per length. -/
theorem C2_independent_attempts_counterexample :
    (timing_attack_simulation 1 [0, 1, 2] zOracle).toOption.map
        (fun p => (p.1.vulnerable.map StepResult.attempt, p.1.secure.map StepResult.attempt))
      = some ([[98], [97]], [[99], [97]]) ∧
      ([[98], [97]] : List (List ℕ)) ≠ [[99], [97]] :=
  ⟨rfl, by decide⟩

theorem sweepLoop_attempt_full (secret : List ℕ) (oracle : ℕ → ℕ → ℕ) (Ls : List ℕ) :
    ∀ (k : ℕ) (supply : List ℕ) rs k2 supply2 i L,
      sweepLoop secret oracle Ls k supply = .ok (rs, k2, supply2) →
      Ls.get? i = some L → secret.length ≤ L →
      (rs.get? i).map StepResult.attempt = some secret := by
  induction Ls with
  | nil =>
    intro k supply rs k2 s2 i L h hi _
    simp at hi
  | cons L0 Ls ih =>
    intro k supply rs k2 s2 i L h hi hL
    unfold sweepLoop at h
    cases hg : generate_password_attempts secret L0 supply with
    | none => simp [hg] at h
    | some p =>
      obtain ⟨att, supply1⟩ := p
      simp only [hg] at h
      cases hm : measure_execution_time (oracle k) 1000 with
      | error e => simp [hm] at h
      | ok q =>
        obtain ⟨avg, times⟩ := q
        simp only [hm] at h
        cases hv : svar times with
        | none => simp [hv] at h
        | some v =>
          simp only [hv] at h
          cases hs : sweepLoop secret oracle Ls (k + 1) supply1 with
          | error e => simp [hs] at h
          | ok r3 =>
            obtain ⟨rs1, k3, s3⟩ := r3
            simp only [hs, Except.ok.injEq, Prod.mk.injEq] at h
            obtain ⟨rfl, rfl, rfl⟩ := h
            cases i with
            | zero =>
              injection hi with hi0
              subst hi0
              unfold generate_password_attempts at hg
              rw [if_pos hL] at hg
              simp only [Option.some_inj, Prod.mk.injEq] at hg
              obtain ⟨rfl, rfl⟩ := hg
              rfl
            | succ i1 =>
              exact ih (k + 1) supply1 rs1 k3 s3 i1 L hs (by simpa using hi) hL

/-- C2 (amended): whenever the simulation succeeds with password length
`n`, the record at index `n` of each of the two sweeps holds the secret
itself as its measured attempt: the attempts of the two sweeps coincide at
full match length, while at other lengths each sweep generates its own. -/
theorem C2_attempts_agree_at_full_length (n : ℕ) (supply : List ℕ)
    (oracle : ℕ → ℕ → ℕ) (res : SimResults) (pw : List ℕ)
    (h : timing_attack_simulation (n : ℤ) supply oracle = .ok (res, pw)) :
    (res.vulnerable.get? n).map StepResult.attempt = some pw ∧
      (res.secure.get? n).map StepResult.attempt = some pw := by
  unfold timing_attack_simulation at h
  cases hc : choices n supply with
  | none => simp [hc] at h
  | some p =>
    obtain ⟨pw1, supply1⟩ := p
    simp only [Int.toNat_ofNat, hc] at h
    cases hs1 : sweepLoop pw1 oracle (pyRange ((n : ℤ) + 1)) 0 supply1 with
    | error e => simp [hs1] at h
    | ok r1 =>
      obtain ⟨vres, k1, supply2⟩ := r1
      simp only [hs1] at h
      cases hs2 : sweepLoop pw1 oracle (pyRange ((n : ℤ) + 1)) k1 supply2 with
      | error e => simp [hs2] at h
      | ok r2 =>
        obtain ⟨sres, k4, supply3⟩ := r2
        simp only [hs2, Except.ok.injEq, Prod.mk.injEq] at h
        obtain ⟨rfl, rfl⟩ := h
        have hr : pyRange ((n : ℤ) + 1) = List.range (n + 1) := by
          simp [pyRange]
        have hg : (List.range (n + 1)).get? n = some n :=
          List.get?_range (Nat.lt_succ_self n)
        have hlen : pw1.length ≤ n := by
          unfold choices at hc
          by_cases hcond : supply.length < n
          · rw [if_pos hcond] at hc
            cases hc
          · rw [if_neg hcond] at hc
            simp only [Option.some_inj, Prod.mk.injEq] at hc
            obtain ⟨hpw, _⟩ := hc
            have h1 : pw1.length = min n supply.length := by
              rw [← hpw]
              simp
            omega
        rw [hr] at hs1 hs2
        constructor
        · exact sweepLoop_attempt_full pw1 oracle (List.range (n + 1)) 0 supply1
            vres k1 supply2 n n hs1 hg hlen
        · exact sweepLoop_attempt_full pw1 oracle (List.range (n + 1)) k1 supply2
            sres k4 supply3 n n hs2 hg hlen

/-- Witness for C2 (amended) at password length 0 with an empty supply:
the simulation succeeds and both sweeps' records at index 0 hold the
secret (the empty string). -/
theorem C2_attempts_agree_at_full_length_witness :
    timing_attack_simulation ((0 : ℕ) : ℤ) [] zOracle
        = .ok (⟨[simStep 0], [simStep 1], 0⟩, []) ∧
      ((SimResults.mk [simStep 0] [simStep 1] 0).vulnerable.get? 0).map StepResult.attempt
          = some [] ∧
      ((SimResults.mk [simStep 0] [simStep 1] 0).secure.get? 0).map StepResult.attempt
          = some [] :=
  ⟨rfl, C2_attempts_agree_at_full_length 0 [] zOracle ⟨[simStep 0], [simStep 1], 0⟩ [] rfl⟩

/-- C3 counterexample: a correlation of -0.9 is classified
"POSSIBLY VULNERABLE", not "VULNERABLE": the vulnerable-side verdict uses
the signed value, not the magnitude. -/
theorem C3_negative_correlation_counterexample :
    verdict_vulnerable (-(9 / 10)) = "POSSIBLY VULNERABLE" ∧
      ("POSSIBLY VULNERABLE" : String) ≠ "VULNERABLE" := by
  constructor
  · unfold verdict_vulnerable
    rw [if_neg (by norm_num)]
  · decide

/-- C3 (amended): the early-exit strategy is reported "VULNERABLE" exactly
when the signed correlation exceeds 0.8 (otherwise "POSSIBLY VULNERABLE"),
the constant-time strategy is reported "SECURE" exactly when the
correlation magnitude is below 0.3 (otherwise "POSSIBLY VULNERABLE"), and
no third ("inconclusive") verdict exists. -/
theorem C3_verdict_policy (c : ℚ) :
    (verdict_vulnerable c = "VULNERABLE" ↔ 8 / 10 < c) ∧
      (verdict_secure c = "SECURE" ↔ |c| < 3 / 10) ∧
      (verdict_vulnerable c = "VULNERABLE" ∨
        verdict_vulnerable c = "POSSIBLY VULNERABLE") ∧
      (verdict_secure c = "SECURE" ∨ verdict_secure c = "POSSIBLY VULNERABLE") := by
  unfold verdict_vulnerable verdict_secure
  refine ⟨?_, ?_, ?_, ?_⟩
  · by_cases h1 : c > 8 / 10
    · rw [if_pos h1]
      exact iff_of_true rfl h1
    · rw [if_neg h1]
      exact iff_of_false (by decide) h1
  · by_cases h2 : |c| < 3 / 10
    · rw [if_pos h2]
      exact iff_of_true rfl h2
    · rw [if_neg h2]
      exact iff_of_false (by decide) h2
  · by_cases h1 : c > 8 / 10
    · rw [if_pos h1]
      exact Or.inl rfl
    · rw [if_neg h1]
      exact Or.inr rfl
  · by_cases h2 : |c| < 3 / 10
    · rw [if_pos h2]
      exact Or.inl rfl
    · rw [if_neg h2]
      exact Or.inr rfl

/-- C4 counterexample: the non-positive password length -1 is accepted
rather than rejected: the simulation completes with an empty sweep, and
the fault surfaces only afterwards as the Analyzer's `IndexError` on the
empty results. -/
theorem C4_no_config_validation_counterexample :
    timing_attack_simulation (-1) [] zOracle = .ok (⟨[], [], -1⟩, []) ∧
      analyze_results [] [] = .error .indexError :=
  ⟨rfl, rfl⟩

/-- C4 (amended): no configuration validation exists: a non-positive
secret length is accepted and the sweep completes (vacuously), with the
failure appearing only in the Analyzer; a non-positive iteration count is
likewise not rejected and instead faults inside the Sampler, when
`statistics.mean` is applied to zero recorded measurements. -/
theorem C4_faults_surface_late :
    timing_attack_simulation (-1) [] zOracle = .ok (⟨[], [], -1⟩, []) ∧
      analyze_results [] [] = .error .indexError ∧
      measure_execution_time (zOracle 0) 0 = .error .statisticsError :=
  ⟨rfl, rfl, rfl⟩

/-- C8 counterexample: when the fastest (index-0) average duration of the
vulnerable sweep is zero, `analyze_results` raises `ZeroDivisionError`
while computing the percentage increase — the zero baseline is not handled
as a degenerate case. -/
theorem C8_zero_baseline_counterexample :
    analyze_results [0, 1] [1, 2] = .error .zeroDivisionError := by
  with_unfolding_all rfl

/-- C8 (amended): the correlation of a single-point sweep is guarded and
reported as the sentinel zero, but a percentage change against a zero
baseline average is not guarded: `analyze_results` raises
`ZeroDivisionError` when the fastest vulnerable average is zero. -/
theorem C8_degenerate_cases :
    (∀ (v s : List ℚ) (r : AnalysisReport), v.length = 1 →
        analyze_results v s = .ok r → r.vulnerable_correlation = CorrOut.sentinel) ∧
      analyze_results [0, 2] [1, 2] = .error .zeroDivisionError := by
  constructor
  · intro v s r hv h
    obtain ⟨t, rfl⟩ : ∃ t, v = [t] := by
      cases v with
      | nil => simp at hv
      | cons a tl =>
        cases tl with
        | nil => exact ⟨a, rfl⟩
        | cons b tl2 => simp at hv
    have h2 :
        (if t = 0 then (Except.error PyError.zeroDivisionError : Except PyError AnalysisReport)
          else
            match analyze_secure_part s with
            | .error e => .error e
            | .ok (corrS, varPct) =>
              .ok ⟨CorrOut.sentinel, corrS, (t - t) / t * 100, varPct⟩) = .ok r := h
    split at h2
    · cases h2
    · cases hsec : analyze_secure_part s with
      | error e => rw [hsec] at h2; cases h2
      | ok q =>
        obtain ⟨corrS, varPct⟩ := q
        rw [hsec] at h2
        cases h2
        rfl
  · with_unfolding_all rfl

/-- Witness for C8 (amended): a successful single-point analysis whose
vulnerable correlation is the sentinel zero. -/
theorem C8_degenerate_cases_witness :
    ([(1 : ℚ)] : List ℚ).length = 1 ∧
      analyze_results [1] [1, 2]
          = .ok ⟨CorrOut.sentinel, CorrOut.value (1 / 2) (1 / 2) (1 / 2), 0, 100⟩ ∧
      (AnalysisReport.mk CorrOut.sentinel (CorrOut.value (1 / 2) (1 / 2) (1 / 2)) 0
          100).vulnerable_correlation = CorrOut.sentinel :=
  ⟨rfl, by with_unfolding_all rfl,
    C8_degenerate_cases.1 [1] [1, 2]
      ⟨CorrOut.sentinel, CorrOut.value (1 / 2) (1 / 2) (1 / 2), 0, 100⟩ rfl
      (by with_unfolding_all rfl)⟩
